import Mathlib

/-!
Verification of the table-extractor core (`table_extractor_gui.py`).

The Python core is shallowly embedded: a pandas `DataFrame` becomes a
`Table` (an ordered header of column names plus a list of rows of cells),
Python dicts become association lists with last-write-wins update and
first-insertion key order, and the single address regex is embedded as an
explicit leftmost-match search function.  Every definition is translated
from the source file; doc comments point to the lines it embeds.
-/

set_option autoImplicit false

namespace TableExtractor

/-- The ASCII characters matched by Python's whitespace class
(space, tab, newline, carriage return, vertical tab, form feed). -/
def isSpaceChar (c : Char) : Bool :=
  c == ' ' || c == '\t' || c == '\n' || c == '\r' || c.toNat == 11 || c.toNat == 12

/-- Python `str.strip()` on a character list. -/
def pyStripList (cs : List Char) : List Char :=
  ((cs.dropWhile isSpaceChar).reverse.dropWhile isSpaceChar).reverse

/-- Python `str.strip()`. -/
def pyStrip (s : String) : String :=
  String.mk (pyStripList s.data)

/-- Python `str.lower()` (ASCII). -/
def pyLower (s : String) : String :=
  String.mk (s.data.map Char.toLower)

/-- Python `.strip().lower()`, the normalisation used for column lookup. -/
def pyNorm (s : String) : String :=
  pyLower (pyStrip s)

/-- Python `pat in hay` substring containment on character lists. -/
def containsSub (hay : List Char) (pat : List Char) : Bool :=
  if pat.isPrefixOf hay then true
  else
    match hay with
    | [] => false
    | _ :: t => containsSub t pat

/-- A loaded table: the pandas `DataFrame` surface the core manipulates.
`header` is the ordered list of column names; `rows` the ordered data rows. -/
structure Table (α : Type) where
  header : List String
  rows : List (List α)
deriving DecidableEq

/-- Reading column `c` of a table (`df[c]`): the cell of each row at the
column's (first) header position; short rows read as empty. -/
def getColVals (df : Table String) (c : String) : List String :=
  df.rows.map (fun r => r.getD (df.header.indexOf c) "")

/-- Pandas column assignment `df[name] = vals`: replaces the values of an
existing column in place, otherwise appends a new column on the right. -/
def setCol (df : Table String) (name : String) (vals : List String) : Table String :=
  if name ∈ df.header then
    { header := df.header,
      rows := List.zipWith (fun r v => r.set (df.header.indexOf name) v) df.rows vals }
  else
    { header := df.header ++ [name],
      rows := List.zipWith (fun r v => r ++ [v]) df.rows vals }

/-- `READABLE_EXTS` (line 30). -/
def READABLE_EXTS : List String := [".csv", ".xlsx", ".xls", ".html", ".htm", ".pdf"]

/-- `CITY_SYNS` (line 32). -/
def CITY_SYNS : List String := ["city", "town", "municipality", "locality", "suburb"]

/-- `REGION_SYNS` (line 33). -/
def REGION_SYNS : List String := ["region", "province", "county", "prefecture", "district", "zone"]

/-- `STATE_SYNS` (line 34). -/
def STATE_SYNS : List String :=
  ["state", "state/province", "state_province", "st", "state_code", "statecode", "prov", "province"]

/-- `ADDRESS_SYNS` (line 36). -/
def ADDRESS_SYNS : List String := ["address", "full address", "addr", "location", "site"]

/-- Last index of character `c` in `cs` (Python `str.rfind`). -/
def lastIndexOf (cs : List Char) (c : Char) : Option Nat :=
  match cs.reverse.findIdx? (· == c) with
  | none => none
  | some k => some (cs.length - 1 - k)

/-- `os.path.splitext(path)[1]` (posix rules): the extension starts at the
last dot that lies after the last path separator, provided some non-dot
character of the basename precedes it; otherwise the extension is empty. -/
def splitext_ext (p : String) : String :=
  let cs := p.data
  match lastIndexOf cs '.' with
  | none => ""
  | some d =>
    let s : Nat :=
      match lastIndexOf cs '/' with
      | none => 0
      | some i => i + 1
    if s ≤ d && ((cs.drop s).take (d - s)).any (fun ch => ch != '.') then
      String.mk (cs.drop d)
    else ""

/-- Which file-system read `load_tables` would perform for a path.  The
embedding returns the requested I/O action instead of performing it, so an
`Except.error` result means the function failed before any I/O. -/
inductive LoadAction where
  | readCsv (p : String)
  | readExcel (p : String)
  | readHtml (p : String)
  | openPdf (p : String)
deriving DecidableEq

/-- The extension-dispatch skeleton of `load_tables` (lines 38-62): checks
the lowercased extension against `READABLE_EXTS` before anything else and
raises `Unsupported file type` on failure; otherwise selects the reader. -/
def load_tables (path : String) : Except String LoadAction :=
  let ext := pyLower (splitext_ext path)
  if ext ∉ READABLE_EXTS then
    Except.error ("Unsupported file type: " ++ ext)
  else if ext = ".csv" then Except.ok (LoadAction.readCsv path)
  else if ext = ".xlsx" || ext = ".xls" then Except.ok (LoadAction.readExcel path)
  else if ext = ".html" || ext = ".htm" then Except.ok (LoadAction.readHtml path)
  else if ext = ".pdf" then Except.ok (LoadAction.openPdf path)
  else Except.error ("Unhandled extension: " ++ ext)

/-- `clean_header` (lines 91-92): `str(x).strip()` for a present cell,
empty string for a null cell. -/
def clean_header (x : Option String) : String :=
  match x with
  | some s => pyStrip s
  | none => ""

/-- Python `max` over a list of naturals (the argument lists below always
contain `1`, so the `0` base is never the maximum). -/
def maxList (l : List Nat) : Nat := l.foldl Nat.max 0

/-- The padding/truncation step of `normalize_header_len` (lines 98-103):
`max_cols = max([len(header)] + [len(r) for r in data_rows] + [1])`, pad
with `col_{i+1}` placeholders or truncate from the end. -/
def padHeader (h : List String) (m : Nat) : List String :=
  if h.length < m then
    h ++ (List.range' h.length (m - h.length)).map (fun i => "col_" ++ toString (i + 1))
  else if h.length > m then h.take m
  else h

/-- Lookup in the `seen` occurrence-count dict of `normalize_header_len`. -/
def lookupCount (seen : List (String × Nat)) (k : String) : Option Nat :=
  (seen.find? (fun p => p.1 == k)).map (fun p => p.2)

/-- `seen[n] += 1` on the occurrence-count dict. -/
def bumpCount (seen : List (String × Nat)) (k : String) : List (String × Nat) :=
  seen.map (fun p => if p.1 == k then (p.1, p.2 + 1) else p)

/-- The deduplication loop of `normalize_header_len` (lines 105-113): an
empty name becomes `col_{i+1}`; a name already seen `k` times is emitted as
`{name}_{k+1}` (the renamed form is not itself recorded in `seen`). -/
def dedupLoop (seen : List (String × Nat)) (i : Nat) : List String → List String
  | [] => []
  | name :: rest =>
    let n := if name = "" then "col_" ++ toString (i + 1) else name
    match lookupCount seen n with
    | some k => (n ++ "_" ++ toString (k + 1)) :: dedupLoop (bumpCount seen n) (i + 1) rest
    | none => n :: dedupLoop (seen ++ [(n, 1)]) (i + 1) rest

/-- `normalize_header_len` (lines 94-114).  Polymorphic in the cell type
since only row lengths are consulted, exactly as in the source. -/
def normalize_header_len {α : Type} (header : List String) (data_rows : List (List α)) : List String :=
  let m := maxList ([header.length] ++ data_rows.map List.length ++ [1])
  dedupLoop [] 0 (padHeader header m)

/-- `any(cell not in [None, ""] for cell in r)` (line 78). -/
def rowNonBlank (r : List (Option String)) : Bool :=
  r.any (fun c => !(c == none || c == some ""))

/-- The PDF header-row heuristic (lines 76-80): the first of the first
three rows with a non-null, non-empty cell, defaulting to row 0. -/
def findHeaderIdx (rows : List (List (Option String))) : Nat :=
  match (rows.take 3).findIdx? rowNonBlank with
  | some i => i
  | none => 0

/-- The per-raw-table body of the PDF branch of `load_tables`
(lines 72-84): null rows become empty rows, an entirely empty raw table is
skipped, the header row is chosen by `findHeaderIdx`, cleaned, normalised
against the remaining data rows, and the data rows follow the header row. -/
def build_pdf_table (t : List (Option (List (Option String)))) : Option (Table (Option String)) :=
  let rows := t.map (fun r => r.getD [])
  if rows.isEmpty then none
  else
    let hIdx := findHeaderIdx rows
    let header := (rows.getD hIdx []).map clean_header
    let data_rows := rows.drop (hIdx + 1)
    some { header := normalize_header_len header data_rows, rows := data_rows }

/-- Insertion into a Python dict modelled as an association list:
an existing key keeps its position and takes the new value, a new key is
appended (insertion order). -/
def dictInsert (m : List (String × String)) (k v : String) : List (String × String) :=
  if m.any (fun p => p.1 == k) then m.map (fun p => if p.1 == k then (k, v) else p)
  else m ++ [(k, v)]

/-- Python dict lookup on the association-list model. -/
def lookupVal (m : List (String × String)) (k : String) : Option String :=
  (m.find? (fun p => p.1 == k)).map (fun p => p.2)

/-- `normalize_cols` (lines 120-127): `{str(c).strip().lower(): c}` built
left to right over the header (later columns overwrite earlier ones that
normalise to the same key). -/
def normalize_cols {α : Type} (df : Table α) : List (String × String) :=
  df.header.foldl (fun m c => dictInsert m (pyNorm c) c) []

/-- `find_col` (lines 129-143): pass 1 tries each candidate's normalised
form as a key of `normalize_cols`; pass 2 scans the map in insertion order
and returns the first entry whose key contains some candidate as a
substring. -/
def find_col {α : Type} (df : Table α) (candidates : List String) : Option String :=
  let cmap := normalize_cols df
  match candidates.findSome? (fun cand => lookupVal cmap (pyNorm cand)) with
  | some c => some c
  | none =>
    cmap.findSome? (fun p =>
      if candidates.any (fun cand => containsSub p.1.data cand.data) then some p.2 else none)

/-- `[A-Za-z]` of the address regex. -/
def pyIsAlpha (c : Char) : Bool :=
  ('A' ≤ c && c ≤ 'Z') || ('a' ≤ c && c ≤ 'z')

/-- One anchored attempt of the regex
`(?P<city>[^,]+),\s*(?P<state>[A-Za-z]{2})(?:\s+\d{4,6})?` (line 162) at
the start of `cs`: a non-empty comma-free city segment, the comma, optional
whitespace, two letters.  The optional postal group never affects the two
captured groups, and a shorter city segment can never be followed by the
literal comma, so backtracking is not needed. -/
def matchHere (cs : List Char) : Option (String × String) :=
  let city := cs.takeWhile (fun c => c != ',')
  let rest := cs.dropWhile (fun c => c != ',')
  if city.isEmpty then none
  else
    match rest with
    | [] => none
    | _ :: rest2 =>
      match rest2.dropWhile isSpaceChar with
      | a :: b :: _ =>
        if pyIsAlpha a && pyIsAlpha b then
          some (String.mk (pyStripList city), String.mk [a.toUpper, b.toUpper])
        else none
      | _ => none

/-- `re.search` with the address pattern: try each start position left to
right, returning the first successful attempt's `(city, state)` groups,
city trimmed and state uppercased (lines 162-167). -/
def regexSearchCityST (cs : List Char) : Option (String × String) :=
  match matchHere cs with
  | some r => some r
  | none =>
    match cs with
    | [] => none
    | _ :: t => regexSearchCityST t

/-- The per-cell parse of `address_fallback` (lines 163-170): the regex
groups on a match, a pair of empty strings otherwise. -/
def addressParse (v : String) : String × String :=
  match regexSearchCityST v.data with
  | some r => r
  | none => ("", "")

/-- `address_fallback` (lines 149-173): locate an address-like column; if
none, return the table untouched with all-`none` slots; else parse every
cell of that column and assign the parsed city and state lists to the
columns `__parsed_city` and `__parsed_state`. -/
def address_fallback (df : Table String) :
    Table String × (Option String × Option String × Option String) :=
  match find_col df ADDRESS_SYNS with
  | none => (df, (none, none, none))
  | some addr_col =>
    let vals := getColVals df addr_col
    let city_vals := vals.map (fun v => (addressParse v).1)
    let state_vals := vals.map (fun v => (addressParse v).2)
    let df1 := setCol df "__parsed_city" city_vals
    let df2 := setCol df1 "__parsed_state" state_vals
    (df2, (some "__parsed_city", some "__parsed_state", none))

/-- Python dict-key collapsing with an accumulator of keys already seen:
duplicates keep their first position and are dropped afterwards. -/
def dedupFirstAux (seen : List String) : List String → List String
  | [] => []
  | x :: xs => if x ∈ seen then dedupFirstAux seen xs else x :: dedupFirstAux (seen ++ [x]) xs

/-- Python dict-key collapsing: duplicates keep their first position and
are dropped afterwards.  This is the key order of the `subset` dict of
`extract_columns` and of the `available` dict. -/
def dedupFirst (l : List String) : List String :=
  dedupFirstAux [] l

/-- The per-name resolution of `extract_columns` (lines 202-210):
`available.get(name)` (exact string match against the header, where for a
string-named frame key and value coincide), else the first dict entry whose
key matches case-insensitively after stripping. -/
def resolveCol (df : Table String) (n : String) : Option String :=
  if n ∈ df.header then some n
  else (dedupFirst df.header).find? (fun k => pyNorm k == pyNorm n)

/-- `subset[name]` (lines 211-214): the resolved column's values, else a
column of empty strings of the table's row count. -/
def colVals (df : Table String) (n : String) : List String :=
  match resolveCol df n with
  | some c => getColVals df c
  | none => List.replicate df.rows.length ""

/-- `pd.DataFrame(subset)` for one input table (lines 200-215): columns are
the dict keys (chosen names, duplicates collapsed to their first position);
an empty dict yields a frame with zero rows. -/
def extractOne (df : Table String) (chosen : List String) : Table String :=
  let cols := dedupFirst chosen
  { header := cols,
    rows :=
      if cols.isEmpty then []
      else (List.range df.rows.length).map (fun i => cols.map (fun n => (colVals df n).getD i "")) }

/-- `extract_columns` (lines 193-218): an empty table list yields an empty
frame whose columns are `chosen_cols` verbatim; otherwise the per-table
frames (which all share the same columns) are concatenated row-wise. -/
def extract_columns (dfs : List (Table String)) (chosen_cols : List String) : Table String :=
  match dfs with
  | [] => { header := chosen_cols, rows := [] }
  | _ =>
    { header := dedupFirst chosen_cols,
      rows := (dfs.map (fun df => (extractOne df chosen_cols).rows)).flatten }

/-! ### Helper lemmas about the embedded operations -/

theorem mem_dedupFirstAux {a : String} :
    ∀ (l seen : List String), a ∈ dedupFirstAux seen l ↔ a ∈ l ∧ a ∉ seen := by
  intro l
  induction l with
  | nil => intro seen; simp [dedupFirstAux]
  | cons x xs ih =>
    intro seen
    by_cases hx : x ∈ seen
    · rw [dedupFirstAux, if_pos hx, ih seen]
      constructor
      · rintro ⟨h1, h2⟩; exact ⟨List.mem_cons_of_mem _ h1, h2⟩
      · rintro ⟨h1, h2⟩
        rcases List.mem_cons.mp h1 with rfl | h
        · exact absurd hx h2
        · exact ⟨h, h2⟩
    · rw [dedupFirstAux, if_neg hx]
      simp only [List.mem_cons, ih (seen ++ [x]), List.mem_append, List.mem_singleton, not_or]
      constructor
      · rintro (rfl | ⟨h1, h2, h3⟩)
        · exact ⟨Or.inl rfl, hx⟩
        · exact ⟨Or.inr h1, h2⟩
      · rintro ⟨rfl | h1, h2⟩
        · exact Or.inl rfl
        · rcases eq_or_ne a x with rfl | hax
          · exact Or.inl rfl
          · exact Or.inr ⟨h1, h2, hax, by simp⟩

theorem nodup_dedupFirstAux : ∀ (l seen : List String), (dedupFirstAux seen l).Nodup := by
  intro l
  induction l with
  | nil => intro seen; simp [dedupFirstAux]
  | cons x xs ih =>
    intro seen
    by_cases hx : x ∈ seen
    · rw [dedupFirstAux, if_pos hx]; exact ih seen
    · rw [dedupFirstAux, if_neg hx]
      refine List.nodup_cons.mpr ⟨?_, ih _⟩
      intro hmem
      rcases (mem_dedupFirstAux _ _).mp hmem with ⟨_, h2⟩
      exact h2 (by simp)

theorem mem_dedupFirst {a : String} {l : List String} : a ∈ dedupFirst l ↔ a ∈ l := by
  simp [dedupFirst, mem_dedupFirstAux]

theorem nodup_dedupFirst (l : List String) : (dedupFirst l).Nodup :=
  nodup_dedupFirstAux l []

theorem count_dedupFirst {a : String} {l : List String} (h : a ∈ l) :
    (dedupFirst l).count a = 1 :=
  List.count_eq_one_of_mem (nodup_dedupFirst l) (mem_dedupFirst.mpr h)

theorem dedupFirstAux_eq_self :
    ∀ (l seen : List String), l.Nodup → (∀ b ∈ l, b ∉ seen) → dedupFirstAux seen l = l := by
  intro l
  induction l with
  | nil => intros; rfl
  | cons x xs ih =>
    intro seen hnd hdisj
    rw [dedupFirstAux, if_neg (hdisj x (List.mem_cons_self x xs))]
    congr 1
    apply ih
    · exact (List.nodup_cons.mp hnd).2
    · intro b hb hmem
      rcases List.mem_append.mp hmem with h | h
      · exact hdisj b (List.mem_cons_of_mem _ hb) h
      · rw [List.mem_singleton] at h; subst h
        exact (List.nodup_cons.mp hnd).1 hb

theorem dedupFirst_eq_self {l : List String} (h : l.Nodup) : dedupFirst l = l :=
  dedupFirstAux_eq_self l [] h (by simp)

theorem dedupFirst_ne_nil {l : List String} (h : l ≠ []) : dedupFirst l ≠ [] := by
  cases l with
  | nil => exact absurd rfl h
  | cons x xs => simp [dedupFirst, dedupFirstAux]

theorem dedupLoop_length :
    ∀ (l : List String) (seen : List (String × Nat)) (i : Nat),
      (dedupLoop seen i l).length = l.length := by
  intro l
  induction l with
  | nil => intros; rfl
  | cons name rest ih =>
    intro seen i
    simp only [dedupLoop]
    split <;> simp [ih]

theorem string_ne_empty_of_length_pos {s : String} (h : 0 < s.length) : s ≠ "" := by
  intro he
  subst he
  exact absurd h (by decide)

theorem dedupLoop_ne_empty :
    ∀ (l : List String) (seen : List (String × Nat)) (i : Nat) (s : String),
      s ∈ dedupLoop seen i l → s ≠ "" := by
  intro l
  induction l with
  | nil => intro seen i s h; simp [dedupLoop] at h
  | cons name rest ih =>
    intro seen i s h
    have hn : (if name = "" then "col_" ++ toString (i + 1) else name) ≠ "" := by
      by_cases hname : name = ""
      · rw [if_pos hname]
        apply string_ne_empty_of_length_pos
        rw [String.length_append]
        have : ("col_" : String).length = 4 := by decide
        omega
      · rw [if_neg hname]; exact hname
    simp only [dedupLoop] at h
    split at h
    · rcases List.mem_cons.mp h with rfl | h2
      · apply string_ne_empty_of_length_pos
        rw [String.length_append, String.length_append]
        have : ("_" : String).length = 1 := by decide
        omega
      · exact ih _ _ _ h2
    · rcases List.mem_cons.mp h with rfl | h2
      · exact hn
      · exact ih _ _ _ h2

theorem foldl_max_init (l : List Nat) : ∀ a : Nat, l.foldl Nat.max a = Nat.max a (l.foldl Nat.max 0) := by
  induction l with
  | nil => intro a; simp
  | cons x xs ih =>
    intro a
    rw [List.foldl_cons, List.foldl_cons, ih (Nat.max a x), ih (Nat.max 0 x)]
    simp [Nat.max_assoc, Nat.zero_max]

theorem maxList_eq (a : Nat) (l : List Nat) :
    maxList ([a] ++ l ++ [1]) = Nat.max a (Nat.max (maxList l) 1) := by
  simp only [maxList, List.singleton_append, List.foldl_cons, List.foldl_append,
    List.foldl_nil]
  rw [foldl_max_init l (Nat.max 0 a)]
  simp [Nat.zero_max, Nat.max_assoc]

theorem padHeader_length (h : List String) (m : Nat) : (padHeader h m).length = m := by
  unfold padHeader
  split
  · rename_i hlt
    rw [List.length_append, List.length_map, List.length_range']
    omega
  · split
    · rename_i hgt
      rw [List.length_take]
      omega
    · rename_i h1 h2
      omega

theorem lookupVal_cons_pos (p : String × String) (m : List (String × String)) (k : String)
    (h : (p.1 == k) = true) : lookupVal (p :: m) k = some p.2 := by
  unfold lookupVal
  simp only [List.find?]
  rw [h]
  rfl

theorem lookupVal_cons_neg (p : String × String) (m : List (String × String)) (k : String)
    (h : (p.1 == k) = false) : lookupVal (p :: m) k = lookupVal m k := by
  unfold lookupVal
  simp only [List.find?]
  rw [h]

theorem lookup_map_replace (m : List (String × String)) (k v : String)
    (h : m.any (fun p => p.1 == k) = true) :
    lookupVal (m.map (fun p => if p.1 == k then (k, v) else p)) k = some v := by
  induction m with
  | nil => simp at h
  | cons p m ih =>
    rw [List.map_cons]
    cases hp : (p.1 == k) with
    | true => rw [if_pos rfl, lookupVal_cons_pos (k, v) _ k (by simp)]
    | false =>
      rw [if_neg (by simp), lookupVal_cons_neg p _ k hp]
      apply ih
      simpa [List.any_cons, hp] using h

theorem lookup_append_single (m : List (String × String)) (k v : String)
    (h : m.any (fun p => p.1 == k) = false) :
    lookupVal (m ++ [(k, v)]) k = some v := by
  induction m with
  | nil =>
    rw [List.nil_append]
    exact lookupVal_cons_pos (k, v) [] k (by simp)
  | cons p m ih =>
    rw [List.any_cons, Bool.or_eq_false_iff] at h
    rw [List.cons_append, lookupVal_cons_neg p _ k h.1]
    exact ih h.2

theorem lookupVal_dictInsert_self (m : List (String × String)) (k v : String) :
    lookupVal (dictInsert m k v) k = some v := by
  unfold dictInsert
  cases hany : m.any (fun p => p.1 == k) with
  | true =>
    rw [if_pos rfl]
    exact lookup_map_replace m k v hany
  | false =>
    rw [if_neg (by simp)]
    exact lookup_append_single m k v hany

theorem lookupVal_dictInsert_ne (m : List (String × String)) (k' v k : String) (h : k' ≠ k) :
    lookupVal (dictInsert m k' v) k = lookupVal m k := by
  unfold dictInsert
  cases hany : m.any (fun p => p.1 == k') with
  | true =>
    rw [if_pos rfl]
    clear hany
    induction m with
    | nil => rfl
    | cons p m ih =>
      rw [List.map_cons]
      cases hp : (p.1 == k') with
      | true =>
        have hp1 : p.1 = k' := eq_of_beq hp
        have hk : ((k', v).1 == k) = false := beq_eq_false_iff_ne.mpr h
        have hpk : (p.1 == k) = false := beq_eq_false_iff_ne.mpr (by rw [hp1]; exact h)
        rw [if_pos rfl, lookupVal_cons_neg _ _ _ hk, lookupVal_cons_neg _ _ _ hpk]
        exact ih
      | false =>
        rw [if_neg (by simp)]
        cases hpk : (p.1 == k) with
        | true => rw [lookupVal_cons_pos _ _ _ hpk, lookupVal_cons_pos _ _ _ hpk]
        | false =>
          rw [lookupVal_cons_neg _ _ _ hpk, lookupVal_cons_neg _ _ _ hpk]
          exact ih
  | false =>
    rw [if_neg (by simp)]
    clear hany
    induction m with
    | nil =>
      rw [List.nil_append, lookupVal_cons_neg _ _ _ (beq_eq_false_iff_ne.mpr h)]
    | cons p m ih =>
      rw [List.cons_append]
      cases hpk : (p.1 == k) with
      | true => rw [lookupVal_cons_pos _ _ _ hpk, lookupVal_cons_pos _ _ _ hpk]
      | false =>
        rw [lookupVal_cons_neg _ _ _ hpk, lookupVal_cons_neg _ _ _ hpk]
        exact ih

theorem lookup_foldl_dictInsert (l : List String) (m : List (String × String))
    (key target : String) (hnorm : pyNorm target = key)
    (honly : ∀ c ∈ l, pyNorm c = key → c = target)
    (hbase : target ∈ l ∨ lookupVal m key = some target) :
    lookupVal (l.foldl (fun m c => dictInsert m (pyNorm c) c) m) key = some target := by
  induction l generalizing m with
  | nil =>
    rcases hbase with h | h
    · cases h
    · exact h
  | cons c rest ih =>
    rw [List.foldl_cons]
    apply ih
    · intro b hb hbn
      exact honly b (List.mem_cons_of_mem _ hb) hbn
    · by_cases hc : pyNorm c = key
      · right
        have hct : c = target := honly c (List.mem_cons_self _ _) hc
        subst hct
        rw [← hc]
        exact lookupVal_dictInsert_self m (pyNorm c) c
      · rcases hbase with h | h
        · rcases List.mem_cons.mp h with rfl | h2
          · exact absurd hnorm hc
          · exact Or.inl h2
        · right
          rw [lookupVal_dictInsert_ne m (pyNorm c) c key hc]
          exact h

theorem extractOne_length (T : Table String) (chosen : List String) (hne : chosen ≠ []) :
    (extractOne T chosen).rows.length = T.rows.length := by
  have hcols : (dedupFirst chosen).isEmpty = false := by
    cases h : dedupFirst chosen with
    | nil => exact absurd h (dedupFirst_ne_nil hne)
    | cons x xs => rfl
  simp [extractOne, hcols]

/-! ### Claim theorems -/

/-- Claim C7: for every header list `h` and every list of data rows `d`,
the length of the header returned by `normalize_header_len h d` equals
`max(len(h), max(len(r) for r in d), 1)`, including the case where `d` is
empty (the source folds the three ingredients into one `max` call, so an
empty `d` contributes nothing). -/
theorem normalize_header_len_length {α : Type} (h : List String) (d : List (List α)) :
    (normalize_header_len h d).length
      = Nat.max h.length (Nat.max (maxList (d.map List.length)) 1) := by
  show (dedupLoop [] 0 (padHeader h (maxList ([h.length] ++ d.map List.length ++ [1])))).length = _
  rw [dedupLoop_length, padHeader_length, maxList_eq]

/-- Claim C3 counterexample: the header `["a", "a", "a_2"]` with no data
rows is normalised to `["a", "a_2", "a_2"]`, which contains a duplicate
name — the renamed second `"a"` collides with the literal `"a_2"` because
renamed forms are never recorded in the `seen` dict.  This refutes the
claim that the output never contains duplicate names. -/
theorem normalize_header_dup_cex :
    normalize_header_len ["a", "a", "a_2"] ([] : List (List String)) = ["a", "a_2", "a_2"] ∧
    ¬ (normalize_header_len ["a", "a", "a_2"] ([] : List (List String))).Nodup := by
  decide

/-- Claim C3 (amended): for every header list `h` and every list of data
rows `d`, the header produced by `normalize_header_len h d` contains no
empty names (empty cells are replaced by `col_{i}` and repeats renamed to
`{name}_{n}`), but the output may contain duplicates when a renamed
`{name}_{n}` collides with another name of that literal shape. -/
theorem normalize_header_no_empty {α : Type} (h : List String) (d : List (List α))
    (s : String) (hs : s ∈ normalize_header_len h d) : s ≠ "" :=
  dedupLoop_ne_empty _ _ _ s hs

/-- Witness for the amended C3 theorem at a concrete input. -/
theorem normalize_header_no_empty_witness :
    "col_1" ∈ normalize_header_len [""] ([] : List (List String)) ∧ ("col_1" : String) ≠ "" :=
  ⟨by decide, normalize_header_no_empty [""] ([] : List (List String)) "col_1" (by decide)⟩

/-- Claim C4 counterexample: a table whose columns are `["City", "CITY"]`
makes `find_col` return `"CITY"`, not `"City"` — the case-insensitive dict
is built left to right with later columns overwriting earlier ones that
normalise to the same key, so the literal `"City"` column is shadowed.
This refutes the claim that a column literally named `"City"` is returned
regardless of the other columns. -/
theorem find_col_city_shadowed_cex :
    find_col (Table.mk ["City", "CITY"] ([] : List (List String))) CITY_SYNS = some "CITY" ∧
    ("CITY" : String) ≠ "City" := by
  decide

/-- Claim C4 (amended): if a table has a column literally named `"City"`
and no other column whose trimmed-lowercased name is `"city"`, then
`find_col table CITY_SYNS` returns `"City"` regardless of the other
columns (in general the last column normalising to `"city"` wins). -/
theorem find_col_city_exact (T : Table String)
    (hmem : "City" ∈ T.header)
    (honly : ∀ c ∈ T.header, pyNorm c = "city" → c = "City") :
    find_col T CITY_SYNS = some "City" := by
  have h1 : lookupVal (normalize_cols T) "city" = some "City" := by
    have := lookup_foldl_dictInsert T.header [] "city" "City" (by decide) honly (Or.inl hmem)
    simpa [normalize_cols] using this
  have e : lookupVal (normalize_cols T) (pyNorm "city") = some "City" := by
    rw [show pyNorm "city" = "city" from by decide]
    exact h1
  have h2 : CITY_SYNS.findSome? (fun cand => lookupVal (normalize_cols T) (pyNorm cand))
      = some "City" := by
    rw [show CITY_SYNS = "city" :: ["town", "municipality", "locality", "suburb"] from rfl]
    have hs : ((fun cand => lookupVal (normalize_cols T) (pyNorm cand)) "city").isSome := by
      show (lookupVal (normalize_cols T) (pyNorm "city")).isSome
      rw [e]
      rfl
    rw [List.findSome?_cons_of_isSome
      (f := fun cand => lookupVal (normalize_cols T) (pyNorm cand)) _ hs]
    exact e
  simp only [find_col]
  rw [h2]

/-- Witness for the amended C4 theorem at a concrete input. -/
theorem find_col_city_exact_witness :
    find_col (Table.mk ["Name", "City"] ([] : List (List String))) CITY_SYNS = some "City" :=
  find_col_city_exact _ (by decide) (by decide)

/-- Claim C2 counterexample: with `chosen = ["City", "City"]` over one
table, the output header is `["City"]` — a single populated column, not
two populated columns of the same name: the per-table `subset` dict keys
collapse the duplicate.  This refutes the §4.4 statement. -/
theorem extract_columns_dup_cex :
    (extract_columns [Table.mk ["City"] [["a"], ["b"]]] ["City", "City"]).header = ["City"] ∧
    (extract_columns [Table.mk ["City"] [["a"], ["b"]]] ["City", "City"]).rows
      = [["a"], ["b"]] := by
  decide

/-- Claim C2 (amended): for every non-empty list of input tables and every
chosen list, each chosen name occurs exactly once in the output header —
a duplicated chosen name yields a single populated column of that name
(the dict-based assembly deduplicates), and no exception is raised. -/
theorem extract_columns_dup_single (dfs : List (Table String)) (chosen : List String)
    (n : String) (hne : dfs ≠ []) (hmem : n ∈ chosen) :
    (extract_columns dfs chosen).header.count n = 1 := by
  cases dfs with
  | nil => exact absurd rfl hne
  | cons d ds =>
    show (dedupFirst chosen).count n = 1
    exact count_dedupFirst hmem

/-- Witness for the amended C2 theorem at a concrete input. -/
theorem extract_columns_dup_single_witness :
    (extract_columns [Table.mk ["City"] [["a"], ["b"]]] ["City", "City"]).header.count "City"
      = 1 :=
  extract_columns_dup_single _ _ _ (by simp) (by decide)

/-- Claim C5 counterexample: with `chosen = []` the output of
`extract_columns [T1, T2] chosen` has 0 rows although `len(T1) + len(T2)`
is 2 (an empty column dict produces an empty frame), and with
`chosen = ["City", "City"]` the output header is `["City"]`, not the
chosen list.  Both refute the claim quantified over every chosen list. -/
theorem extract_columns_concat_cex :
    (extract_columns [Table.mk ["City"] [["a"]], Table.mk ["City"] [["b"]]]
        ([] : List String)).rows.length = 0 ∧
    (extract_columns [Table.mk ["City"] [["a"]], Table.mk ["City"] [["b"]]]
        ["City", "City"]).header = ["City"] := by
  decide

/-- Claim C5 (amended): for every pair of tables and every non-empty,
duplicate-free chosen list, `extract_columns [T1, T2] chosen` has header
exactly `chosen`, its rows are T1's projected rows (in order) followed by
T2's projected rows (in order), and its row count is
`len(T1) + len(T2)`. -/
theorem extract_columns_concat (T1 T2 : Table String) (chosen : List String)
    (hne : chosen ≠ []) (hnd : chosen.Nodup) :
    (extract_columns [T1, T2] chosen).header = chosen ∧
    (extract_columns [T1, T2] chosen).rows
      = (extractOne T1 chosen).rows ++ (extractOne T2 chosen).rows ∧
    (extract_columns [T1, T2] chosen).rows.length = T1.rows.length + T2.rows.length := by
  have hrows : (extract_columns [T1, T2] chosen).rows
      = (extractOne T1 chosen).rows ++ (extractOne T2 chosen).rows := by
    simp only [extract_columns, List.map_cons, List.map_nil, List.flatten_cons,
      List.flatten_nil, List.append_nil]
  have hheader : (extract_columns [T1, T2] chosen).header = chosen := by
    show dedupFirst chosen = chosen
    exact dedupFirst_eq_self hnd
  refine ⟨hheader, hrows, ?_⟩
  rw [hrows, List.length_append, extractOne_length T1 chosen hne, extractOne_length T2 chosen hne]

/-- Witness for the amended C5 theorem at a concrete input. -/
theorem extract_columns_concat_witness :
    (extract_columns [Table.mk ["City"] [["a"]], Table.mk ["City"] [["b"]]]
        ["City"]).rows.length = 2 := by
  have h := extract_columns_concat (Table.mk ["City"] [["a"]]) (Table.mk ["City"] [["b"]])
      ["City"] (by simp) (by simp)
  rw [h.2.2]
  rfl

/-- Claim C6: for every table and every chosen name that resolves to no
column of the table — neither by exact name match nor by case-insensitive
(trimmed-lowercased) match — the projector's output column for that name
consists entirely of empty strings and has length equal to the table's row
count. -/
theorem extract_columns_missing_fill (T : Table String) (chosen : List String) (n : String)
    (hmem : n ∈ chosen) (hex : n ∉ T.header)
    (hci : ∀ c ∈ T.header, pyNorm c ≠ pyNorm n) :
    getColVals (extract_columns [T] chosen) n = List.replicate T.rows.length "" := by
  have hres : resolveCol T n = none := by
    unfold resolveCol
    rw [if_neg hex]
    apply List.find?_eq_none.mpr
    intro k hk
    have hkh : k ∈ T.header := mem_dedupFirst.mp hk
    simpa using hci k hkh
  have hcv : colVals T n = List.replicate T.rows.length "" := by
    unfold colVals
    rw [hres]
  have hout : extract_columns [T] chosen
      = { header := dedupFirst chosen, rows := (extractOne T chosen).rows } := by
    simp only [extract_columns, List.map_cons, List.map_nil, List.flatten_cons,
      List.flatten_nil, List.append_nil]
  have hcolsne : (dedupFirst chosen).isEmpty = false := by
    cases hh : dedupFirst chosen with
    | nil =>
      exact absurd hh (dedupFirst_ne_nil (by rintro rfl; cases hmem))
    | cons x xs => rfl
  have hrows : (extractOne T chosen).rows
      = (List.range T.rows.length).map
          (fun i => (dedupFirst chosen).map (fun m => (colVals T m).getD i "")) := by
    simp [extractOne, hcolsne]
  rw [hout]
  unfold getColVals
  rw [hrows, List.map_map]
  have hn : n ∈ dedupFirst chosen := mem_dedupFirst.mpr hmem
  have hidx : (dedupFirst chosen).indexOf n < (dedupFirst chosen).length :=
    List.indexOf_lt_length.mpr hn
  apply List.eq_replicate_iff.mpr
  constructor
  · rw [List.length_map, List.length_range]
  · intro b hb
    obtain ⟨i, hi, hbi⟩ := List.mem_map.mp hb
    have hi' : i < T.rows.length := List.mem_range.mp hi
    rw [← hbi]
    show ((dedupFirst chosen).map (fun m => (colVals T m).getD i "")).getD
        ((dedupFirst chosen).indexOf n) "" = ""
    rw [List.getD_eq_getElem _ _ (by simpa using hidx), List.getElem_map,
      List.getElem_indexOf hidx, hcv,
      List.getD_eq_getElem _ _ (by simpa using hi'), List.getElem_replicate]

/-- Witness for the C6 theorem at a concrete input. -/
theorem extract_columns_missing_fill_witness :
    getColVals (extract_columns [Table.mk ["City"] [["a"], ["b"]]] ["City", "NotAColumn"])
        "NotAColumn" = ["", ""] := by
  have h := extract_columns_missing_fill (Table.mk ["City"] [["a"], ["b"]])
      ["City", "NotAColumn"] "NotAColumn" (by decide) (by decide) (by decide)
  rw [h]
  rfl

/-- Claim C1 is contradicted by the code: on the spec's example address the
regex `([^,]+),\s*([A-Za-z]{2})(?:\s+\d{4,6})?` matches leftmost-greedily
at the FIRST comma, capturing city `"123 Main St"` and state `"Sp"` (the
first two letters of `"Springfield"`), so the recorded values are
`"123 Main St"` and `"SP"`, not `"Springfield"` and `"IL"`.  The
`"No commas here"` half of the claim does hold (both recorded values are
empty).  This theorem evaluates the embedded code at the failing input. -/
theorem address_parse_springfield_divergence :
    getColVals (address_fallback (Table.mk ["Address"]
        [["123 Main St, Springfield, IL 62704"], ["No commas here"]])).1 "__parsed_city"
      = ["123 Main St", ""] ∧
    getColVals (address_fallback (Table.mk ["Address"]
        [["123 Main St, Springfield, IL 62704"], ["No commas here"]])).1 "__parsed_state"
      = ["SP", ""] ∧
    addressParse "123 Main St, Springfield, IL 62704" ≠ ("Springfield", "IL") := by
  decide

theorem getColVals_length (df : Table String) (c : String) :
    (getColVals df c).length = df.rows.length := by
  simp [getColVals]

theorem setCol_not_mem (df : Table String) (name : String) (vals : List String)
    (h : name ∉ df.header) :
    setCol df name vals
      = { header := df.header ++ [name],
          rows := List.zipWith (fun r v => r ++ [v]) df.rows vals } := by
  unfold setCol
  rw [if_neg h]

theorem zipWith_push_push (rows : List (List String)) (vs : List String)
    (f g : String → String) :
    List.zipWith (fun r v => r ++ [v])
        (List.zipWith (fun r v => r ++ [v]) rows (vs.map f)) (vs.map g)
      = List.zipWith (fun r p => r ++ [p.1, p.2]) rows (vs.map (fun v => (f v, g v))) := by
  induction rows generalizing vs with
  | nil => simp
  | cons r rows ih =>
    cases vs with
    | nil => simp
    | cons v vs =>
      simp only [List.map_cons, List.zipWith_cons_cons, ih]
      congr 1
      simp

/-- Claim C10 counterexample: a table that already has a `"__parsed_city"`
column (plus an address column) is not extended by two appended columns —
pandas column assignment overwrites the existing `"__parsed_city"` column
in place (its cell `"keep"` becomes the parsed value `"x"`), and only
`"__parsed_state"` is appended.  This refutes both the frame part of the
claim (pre-existing cell values unchanged) and the no-collision part. -/
theorem address_fallback_overwrite_cex :
    (address_fallback (Table.mk ["Address", "__parsed_city"] [["x, AB 12345", "keep"]])).1
      = Table.mk ["Address", "__parsed_city", "__parsed_state"] [["x, AB 12345", "x", "AB"]] ∧
    getColVals (address_fallback (Table.mk ["Address", "__parsed_city"]
        [["x, AB 12345", "keep"]])).1 "__parsed_city" ≠ ["keep"] := by
  decide

/-- Claim C10 (amended): when the address fallback finds an address-like
column and the reserved names `__parsed_city` and `__parsed_state` are not
already columns of the table, it appends exactly those two synthetic
columns of length equal to the table's row count, leaves every
pre-existing column, its position, and its cell values unchanged, and the
region slot of the returned triple is `none`; if a reserved name already
names a column, that column is instead overwritten in place. -/
theorem address_fallback_append_frame (T : Table String) (a : String)
    (hfind : find_col T ADDRESS_SYNS = some a)
    (hc : "__parsed_city" ∉ T.header) (hs : "__parsed_state" ∉ T.header) :
    (address_fallback T).1.header = T.header ++ ["__parsed_city", "__parsed_state"] ∧
    (address_fallback T).1.rows
      = List.zipWith (fun r p => r ++ [p.1, p.2]) T.rows ((getColVals T a).map addressParse) ∧
    (address_fallback T).1.rows.length = T.rows.length ∧
    (address_fallback T).2 = (some "__parsed_city", some "__parsed_state", none) := by
  have hs2 : "__parsed_state" ∉ T.header ++ ["__parsed_city"] := by
    intro hmem
    rcases List.mem_append.mp hmem with h | h
    · exact hs h
    · rw [List.mem_singleton] at h
      exact absurd h (by decide)
  have hmain : address_fallback T
      = ({ header := T.header ++ ["__parsed_city", "__parsed_state"],
           rows := List.zipWith (fun r p => r ++ [p.1, p.2]) T.rows
             ((getColVals T a).map addressParse) },
         (some "__parsed_city", some "__parsed_state", none)) := by
    unfold address_fallback
    rw [hfind]
    dsimp only
    rw [setCol_not_mem T _ _ hc]
    rw [setCol_not_mem _ _ _ hs2]
    dsimp only
    rw [zipWith_push_push, List.append_assoc]
    simp only [Prod.mk.eta]
    rfl
  rw [hmain]
  refine ⟨rfl, rfl, ?_, rfl⟩
  show (List.zipWith _ T.rows ((getColVals T a).map addressParse)).length = T.rows.length
  rw [List.length_zipWith, List.length_map, getColVals_length]
  exact Nat.min_self _

/-- Witness for the amended C10 theorem at a concrete input. -/
theorem address_fallback_append_frame_witness :
    (address_fallback (Table.mk ["Address"] [["a, BC 99999"]])).1.header
      = ["Address", "__parsed_city", "__parsed_state"] ∧
    (address_fallback (Table.mk ["Address"] [["a, BC 99999"]])).1.rows
      = [["a, BC 99999", "a", "BC"]] := by
  have h := address_fallback_append_frame (Table.mk ["Address"] [["a, BC 99999"]]) "Address"
      (by decide) (by decide) (by decide)
  refine ⟨?_, ?_⟩
  · rw [h.1]
    rfl
  · rw [h.2.1]
    decide

theorem findHeaderIdx_two (a b c : List (Option String)) (l : List (List (Option String)))
    (h0 : rowNonBlank a = false) (h1 : rowNonBlank b = false) (h2 : rowNonBlank c = true) :
    findHeaderIdx (a :: b :: c :: l) = 2 := by
  unfold findHeaderIdx
  rw [show (a :: b :: c :: l).take 3 = [a, b, c] from rfl]
  simp [List.findIdx?_cons, h0, h1, h2]

/-- Claim C8: for every raw PDF table whose first two rows consist only of
null/empty cells and whose third row contains a non-null, non-empty cell,
the produced table's header is the cleaned third row after header-length
normalisation and its data rows are row 4 onward; and in general, when
none of the first three rows qualifies, the header row defaults to row 0. -/
theorem build_pdf_table_header_row
    (t : List (Option (List (Option String)))) (rows2 : List (List (Option String)))
    (hlen : 2 < t.length)
    (h0 : rowNonBlank ((t.map (fun r => r.getD [])).getD 0 []) = false)
    (h1 : rowNonBlank ((t.map (fun r => r.getD [])).getD 1 []) = false)
    (h2 : rowNonBlank ((t.map (fun r => r.getD [])).getD 2 []) = true)
    (hall : ∀ r ∈ rows2.take 3, rowNonBlank r = false) :
    build_pdf_table t
      = some { header := normalize_header_len
                 (((t.map (fun r => r.getD [])).getD 2 []).map clean_header)
                 ((t.map (fun r => r.getD [])).drop 3),
               rows := (t.map (fun r => r.getD [])).drop 3 } ∧
    findHeaderIdx rows2 = 0 := by
  constructor
  · have hlen' : 2 < (t.map (fun r => r.getD ([] : List (Option String)))).length := by
      simpa using hlen
    simp only [build_pdf_table]
    generalize hrs : t.map (fun r => r.getD ([] : List (Option String))) = rs
      at h0 h1 h2 hlen' ⊢
    rcases rs with _ | ⟨a, _ | ⟨b, _ | ⟨c, l⟩⟩⟩
    · simp at hlen'
    · simp at hlen'
    · simp at hlen'
    · simp only [List.getD_cons_zero, List.getD_cons_succ] at h0 h1 h2
      rw [if_neg (by simp), findHeaderIdx_two a b c l h0 h1 h2]
  · have hnone : (rows2.take 3).findIdx? rowNonBlank = none :=
      List.findIdx?_eq_none_iff.mpr hall
    unfold findHeaderIdx
    rw [hnone]

/-- Witness for the C8 theorem at a concrete input. -/
theorem build_pdf_table_header_row_witness :
    build_pdf_table [some [none, some ""], some [none], some [some "Name", some "Age"],
        some [some "alice", some "30"]]
      = some (Table.mk ["Name", "Age"] [[some "alice", some "30"]]) ∧
    findHeaderIdx [] = 0 := by
  have h := build_pdf_table_header_row
      [some [none, some ""], some [none], some [some "Name", some "Age"],
        some [some "alice", some "30"]]
      [] (by decide) (by decide) (by decide) (by decide) (by simp)
  refine ⟨?_, h.2⟩
  rw [h.1]
  decide

/-- Claim C9: for every path whose lowercased extension is not one of
`.csv`, `.xlsx`, `.xls`, `.html`, `.htm`, `.pdf`, `load_tables` fails with
the unsupported-format error.  In the embedding every file-system read is
a returned `LoadAction`, so the error result shows the failure happens
before any I/O is requested — the extension computation is pure string
manipulation. -/
theorem load_tables_unsupported_ext (path : String)
    (h : pyLower (splitext_ext path) ∉ READABLE_EXTS) :
    load_tables path
      = Except.error ("Unsupported file type: " ++ pyLower (splitext_ext path)) := by
  simp only [load_tables]
  rw [if_pos h]

/-- Witness for the C9 theorem at a concrete input (`.docx`). -/
theorem load_tables_unsupported_ext_witness :
    load_tables "report.docx" = Except.error "Unsupported file type: .docx" := by
  rw [load_tables_unsupported_ext "report.docx" (by decide)]
  rfl

end TableExtractor
